import Mathlib

/-!
# Verification of the documentation-to-PDF crawler scripts

A shallow embedding, in Lean 4, of the crawl-filter-render-merge pipeline
shared by the scripts of this repository, chiefly
`apache_httpd_doc_crawler.py` (frontier loop, link filter, content cleaner,
PDF conversion and merge) and `bind9_pdf_v2.py` (the resumable-cache
generate/download/merge flow).  External collaborators (HTTP fetching, HTML
parsing, the PDF renderer and page merger, the filesystem) are modelled as
oracle functions supplied to the embedded code; everything the scripts
compute themselves (URL filtering, the visited set and worklist, the skip /
retry decisions, the merge bookkeeping) is translated directly from the
Python source.
-/

namespace DocPdf

/-! ## URL parsing

Model of the fragment of `urllib.parse.urlparse` the scripts rely on:
splitting an (absolute or relative) URL into a network location and a path.
Queries and fragments never occur in the URLs these scripts manipulate.
-/

structure UrlParts where
  netloc : String
  path : String
deriving Repr, DecidableEq

/-- Lowercasing, as the Python `str.lower` method on the ASCII strings in play. -/
def lowerStr (s : String) : String :=
  ⟨s.data.map Char.toLower⟩

/-- Split a character list at every occurrence of `sep`, with the same
semantics as the Python `str.split(sep)` method on one-character separators (an empty
input yields `[""]`, adjacent separators yield empty segments). -/
def splitChar (sep : Char) : List Char → List String
  | [] => [""]
  | c :: rest =>
    let r := splitChar sep rest
    if c == sep then "" :: r
    else
      match r with
      | [] => [⟨[c]⟩]
      | s :: ss => (⟨c :: s.data⟩ : String) :: ss

/-- Locate the first `://` in a character list, returning what follows it. -/
def afterScheme : List Char → Option (List Char)
  | [] => none
  | c :: rest =>
    if [':', '/', '/'].isPrefixOf (c :: rest) then some (rest.drop 2)
    else afterScheme rest

/-- Parsing a URL: `urlparse url` splits off the scheme at `://`, then the netloc at the
first following `/`; a URL without a scheme has an empty netloc and is all
path, as in `urllib.parse.urlparse` for the URL shapes the scripts see. -/
def urlparse (url : String) : UrlParts :=
  match afterScheme url.data with
  | none => ⟨"", url⟩
  | some rest =>
    ⟨⟨rest.takeWhile (· != '/')⟩, ⟨rest.dropWhile (· != '/')⟩⟩

/-- The Python `needle in haystack` test on strings: contiguous-substring test,
done on the underlying character lists. -/
def hasSubstr (needle : String) (hay : String) : Bool :=
  go needle.data hay.data
where
  go (n : List Char) : List Char → Bool
  | [] => n.isEmpty
  | c :: rest => n.isPrefixOf (c :: rest) || go n rest

/-- The Python `s.strip("/")` call: drop `/` characters from both ends. -/
def stripSlashes (s : String) : String :=
  ⟨((s.data.dropWhile (· == '/')).reverse.dropWhile (· == '/')).reverse⟩

/-- The `LOCALE_CODE_REGEX` of `apache_httpd_doc_crawler.py`:
`^[a-z]{2}(\-[a-z]{2})?$` with `re.IGNORECASE`, applied with `re.match` —
exactly two letters, optionally followed by a hyphen and two more letters. -/
def localeCodeMatch (s : String) : Bool :=
  match s.data with
  | [a, b] => a.isAlpha && b.isAlpha
  | [a, b, h, c, d] => a.isAlpha && b.isAlpha && h == '-' && c.isAlpha && d.isAlpha
  | _ => false

/-! ## The link filter (`is_valid_link`)

Translated from `apache_httpd_doc_crawler.py` lines 71–97.  The module
constants `DOMAIN` and `EXCLUDE_KEYWORDS` are gathered into a `FilterRule`
so that the filter can be stated both for the configuration of the script and
for the configuration used by the test in the specification; `DOC_PATH_REGEX =
^/docs/current/` (searched case-insensitively) is the prefix test below.
-/

structure FilterRule where
  domain : String
  exclude_keywords : List String
deriving Repr

/-- The `DOMAIN` and `EXCLUDE_KEYWORDS` constants of
`apache_httpd_doc_crawler.py`. -/
def apacheRule : FilterRule :=
  { domain := "httpd.apache.org"
    exclude_keywords :=
      ["zh-cn", "ja", "ko", "fr", "ru", "pt-br",
       "faq", "glossary", "license", "sitemap"] }

/-- The filter `is_valid_link` of `apache_httpd_doc_crawler.py`: reject an empty href;
reject an explicit foreign host; require the path to start with
`/docs/current/` (case-insensitive); reject a path containing an excluded
keyword (case-insensitive substring); reject a path whose third
slash-separated segment is a locale code. -/
def is_valid_link (rule : FilterRule) (href : String) : Bool :=
  if href == "" then false
  else
    let parsed := urlparse href
    if parsed.netloc != "" && lowerStr parsed.netloc != rule.domain then false
    else if !("/docs/current/".data.isPrefixOf (lowerStr parsed.path).data) then false
    else
      let lower_path := lowerStr parsed.path
      if rule.exclude_keywords.any (fun kw => hasSubstr kw lower_path) then false
      else
        let splitted := splitChar '/' (stripSlashes parsed.path).data
        if decide (3 ≤ splitted.length) && localeCodeMatch (splitted.getD 2 "") then false
        else true

/-! ## Frontier state and the crawl loop

Translated from `main` of `apache_httpd_doc_crawler.py` (lines 142–188) and
its module-level state (lines 56–59).  `visited` is a Python `set` (modelled
as a duplicate-free list grown only through the dequeue path), `to_visit` a
Python list popped from its end (`list.pop()`), `pdf_files` the merge
manifest, `page_count` the success counter.  `processed` is a ghost record
of the URLs that passed the visited check and were handed to
fetch/render, in order; `files_on_disk` is a ghost record of the PDF files
the renderer actually produced.  The network, the page parser and the
renderer are the oracles in `CrawlEnv` / `renderOk`.
-/

structure CrawlState where
  visited : List String
  to_visit : List String
  processed : List String
  pdf_files : List String
  page_count : Nat
  files_on_disk : List String
deriving Repr, DecidableEq

structure CrawlEnv where
  rule : FilterRule
  crawl_limit : Nat
  links : String → List String
  fetchOk : String → Bool
  cleanupOk : String → Bool

/-- One link-discovery step of the loop body (lines 161–164): the href is
already resolved by `urljoin`; it is appended to the worklist when it is not
yet visited and passes `is_valid_link`.  No check against the pending
worklist is made. -/
def offer (rule : FilterRule) (st : CrawlState) (link_url : String) : CrawlState :=
  if !(st.visited.contains link_url) && is_valid_link rule link_url then
    { st with to_visit := st.to_visit ++ [link_url] }
  else st

/-- Output-file naming (lines 167–172): the URL path, stripped of slashes,
`index` when empty, slashes replaced by `-`, suffixed `.pdf`, joined under
`OUTPUT_DIR`. -/
def pdf_fullpath (url : String) : String :=
  let stripped := stripSlashes (urlparse url).path
  let path_part := if stripped == "" then "index" else stripped
  "apache_httpd_docs_pdf/" ++ ⟨path_part.data.map (fun c => if c == '/' then '-' else c)⟩ ++ ".pdf"

/-- The conversion block of the loop body (lines 174–181).
`fetch_and_cleanup_html` may raise (modelled by `env.cleanupOk`), in which
case the `except` branch is taken and nothing is recorded.  `html_to_pdf`
catches every renderer exception internally, so the appends to `pdf_files`
and `page_count` happen whether or not a PDF file appeared on disk
(`renderOk`). -/
def convertPage (env : CrawlEnv) (renderOk : String → Bool) (url : String)
    (st : CrawlState) : CrawlState :=
  let p := pdf_fullpath url
  if env.cleanupOk url then
    let st1 := { st with pdf_files := st.pdf_files ++ [p], page_count := st.page_count + 1 }
    if renderOk p then { st1 with files_on_disk := st1.files_on_disk ++ [p] } else st1
  else st

/-- The Python `list.pop()` call: remove and return the last element. -/
def popLast? (l : List String) : Option (String × List String) :=
  match l.getLast? with
  | none => none
  | some url => some (url, l.dropLast)

/-- One iteration of the `while` body (lines 145–181): pop a URL; skip it if
already visited; otherwise add it to `visited` (before any fetch), then — if
the fetch succeeded — discover links and run the conversion block. -/
def crawlStep (env : CrawlEnv) (renderOk : String → Bool) (st : CrawlState) : CrawlState :=
  match popLast? st.to_visit with
  | none => st
  | some (url, rest) =>
    if st.visited.contains url then { st with to_visit := rest }
    else
      let st1 := { st with to_visit := rest,
                           visited := st.visited ++ [url],
                           processed := st.processed ++ [url] }
      if env.fetchOk url then
        let st2 := (env.links url).foldl (offer env.rule) st1
        convertPage env renderOk url st2
      else st1

/-- The negation of the `while` guard (line 145): the loop is done when the
worklist is empty or the visited count has reached `CRAWL_LIMIT`. -/
def crawlDone (env : CrawlEnv) (st : CrawlState) : Bool :=
  st.to_visit.isEmpty || decide (env.crawl_limit ≤ st.visited.length)

/-- The `while` loop of `main`, run under explicit fuel; a finished state is
a fixed point, so any sufficiently large fuel yields the result of the loop. -/
def crawlLoop (env : CrawlEnv) (renderOk : String → Bool) : Nat → CrawlState → CrawlState
  | 0, st => st
  | fuel + 1, st =>
    if crawlDone env st then st
    else crawlLoop env renderOk fuel (crawlStep env renderOk st)

/-- The module-level initial state: `visited = set()`, `to_visit = [START_URL]`. -/
def initState (start : String) : CrawlState :=
  { visited := [], to_visit := [start], processed := [],
    pdf_files := [], page_count := 0, files_on_disk := [] }

/-! ### The cyclic two-page example of the termination test in the specification -/

def exX : String := "https://httpd.apache.org/docs/current/x.html"

def exY : String := "https://httpd.apache.org/docs/current/y.html"

/-- A link graph with a cycle: page X links to page Y, which links back. -/
def exEnv : CrawlEnv :=
  { rule := apacheRule, crawl_limit := 200,
    links := fun u => if u == exX then [exY] else if u == exY then [exX] else [],
    fetchOk := fun _ => true, cleanupOk := fun _ => true }

def exRender : String → Bool := fun _ => true

/-- An already-drained frontier state, used to instantiate the fixed-point
part of the termination theorem. -/
def doneState : CrawlState :=
  { visited := [], to_visit := [], processed := [],
    pdf_files := [], page_count := 0, files_on_disk := [] }

/-- The `FilterRule` of the filter-correctness test in the specification:
allow-pattern `^/docs/current/` (built into `is_valid_link`), domain
`example.org`, exclude keywords `["faq"]`. -/
def specRule : FilterRule :=
  { domain := "example.org", exclude_keywords := ["faq"] }

/-! ## The merger (`merge_pdfs`) -/

structure MergeResult where
  pages : List String
  wrote : Bool
deriving Repr, DecidableEq

/-- The merger `merge_pdfs` of `apache_httpd_doc_crawler.py` (lines 131–140): append
each input PDF in manifest order — an input that cannot be opened or parsed
is skipped with a logged warning — then call `merger.write(output_pdf)`
unconditionally.  `appendOk` says whether an input can be appended,
`pagesOf` gives its pages; `wrote` records that the output file was
written. -/
def merge_pdfs (appendOk : String → Bool) (pagesOf : String → List String)
    (pdf_list : List String) : MergeResult :=
  { pages := pdf_list.foldl (fun acc f => if appendOk f then acc ++ pagesOf f else acc) []
    wrote := true }

/-! ### A three-page chain on which the render of page B fails -/

def exA : String := "https://httpd.apache.org/docs/current/a.html"

def exB : String := "https://httpd.apache.org/docs/current/b.html"

def exC : String := "https://httpd.apache.org/docs/current/c.html"

/-- Page A links to page B, which links to page C. -/
def chainEnv : CrawlEnv :=
  { rule := apacheRule, crawl_limit := 200,
    links := fun u => if u == exA then [exB] else if u == exB then [exC] else [],
    fetchOk := fun _ => true, cleanupOk := fun _ => true }

/-- The renderer fails exactly on the output file of page B. -/
def renderFailB : String → Bool := fun p => !(p == pdf_fullpath exB)

/-! ## The content cleaner (`fetch_and_cleanup_html`) -/

/-- The parsed document after the removal pass of `fetch_and_cleanup_html`
(lines 107–110) — what remains once every selector in
`SELECTORS_TO_REMOVE` has been decomposed.  HTML parsing itself is the
external collaborator; the model keeps exactly what the selection step
reads: the serialized `div#page-content` if one remains, the serialized
`body` if one exists, and the serialization of the whole document. -/
structure Soup where
  pageContentDiv : Option String
  body : Option String
  whole : String
deriving Repr, DecidableEq

/-- A cleaned document that lacks the `div#page-content` region but has a
body: the fallback-selection test case of the specification. -/
def exSoup : Soup :=
  { pageContentDiv := none
    body := some "<body>x</body>"
    whole := "<html><body>x</body></html>" }

/-- A cleaned document in which the `div#page-content` region is present. -/
def exSoupMain : Soup :=
  { pageContentDiv := some "<div id=page-content>m</div>"
    body := some "<body>m</body>"
    whole := "<html><body>m</body></html>" }

/-- A cleaned document with neither a `div#page-content` region nor a body. -/
def exSoupBare : Soup :=
  { pageContentDiv := none
    body := none
    whole := "<p>w</p>" }

/-- A frontier state in which the next URL to be popped is already in the
visited set. -/
def seenState : CrawlState :=
  { visited := [exX], to_visit := [exX], processed := [exX],
    pdf_files := [], page_count := 0, files_on_disk := [] }

/-- The selection step of `fetch_and_cleanup_html` (lines 112–117): if
`div#page-content` was found return it; otherwise return
`str(soup.body or soup)` — the body when present, the whole remaining
document when not. -/
def select_content (soup : Soup) : String :=
  match soup.pageContentDiv with
  | some content_div => content_div
  | none =>
    match soup.body with
    | some b => b
    | none => soup.whole

/-! ## The resumable cache of `bind9_pdf_v2.py` -/

namespace Bind9

/-- The task-status JSON of the doc360 status endpoint, reduced to the
fields the script reads: `taskStatus.isComplete` and the `result` list of
`name`/`value` pairs. -/
structure TaskData where
  isComplete : Bool
  result : List (String × String)
deriving Repr, DecidableEq

/-- The polling loop `poll_task_status` (lines 526–550), driven by the list of per-attempt
responses — `none` for an HTTP error or an exception, `some d` for parsed
JSON.  The loop returns the first response whose `taskStatus.isComplete` is
true; when the attempt budget (the length of the list) is exhausted it
gives up and returns `{}`, modelled as `none`. -/
def poll_task_status : List (Option TaskData) → Option TaskData
  | [] => none
  | none :: rest => poll_task_status rest
  | some d :: rest => if d.isComplete then some d else poll_task_status rest

/-- The generate step `generate_single_article_pdf` (lines 552–599).  `postResp` is the
generate-PDF POST outcome: `none` for an HTTP error or exception,
`some none` for a response without a `taskId`, `some (some tid)` for an
accepted task.  Returns the PDF URL, or `none` on any failure: POST failed,
no task id, polling never saw completion, or a completed status without a
`url` entry in `result`. -/
def generate_single_article_pdf (postResp : Option (Option String))
    (pollResps : List (Option TaskData)) : Option String :=
  match postResp with
  | none => none
  | some none => none
  | some (some _) =>
    match poll_task_status pollResps with
    | none => none
    | some d =>
      if !d.isComplete then none
      else
        match d.result.find? (fun item => item.1 == "url") with
        | some item => some item.2
        | none => none

inductive DownloadDecision
  | skip
  | attempt
deriving Repr, DecidableEq

/-- The skip/attempt decision of Step B of `main` (lines 705–724) for one
slug, together with the tracker after the decision.  The tracker
(`pdf_tracker`) is an association list from article id to local file path.
A slug in the failed set, or without a resolved article id, is skipped; a
tracked article whose file is on disk is skipped; a tracked article whose
file is missing has its tracker entry deleted (`del pdf_tracker[art_id]`)
and is attempted afresh; an untracked article is attempted. -/
def stepB_decide (failed : List String) (slug : String)
    (articleId? : Option String) (tracker : List (String × String))
    (fileExists : String → Bool) : DownloadDecision × List (String × String) :=
  if failed.contains slug then (.skip, tracker)
  else
    match articleId? with
    | none => (.skip, tracker)
    | some art_id =>
      match tracker.find? (fun kv => kv.1 == art_id) with
      | some kv =>
        if fileExists kv.2 then (.skip, tracker)
        else (.attempt, tracker.filter (fun kv2 => !(kv2.1 == art_id)))
      | none => (.attempt, tracker)

/-- The bookkeeping after an attempt (lines 729–742): when a PDF URL came
back and the download succeeded, record `art_id → slug ++ ".pdf"` in the
tracker; on any failure — no PDF URL from doc360, or a download error —
neither the failed set nor the tracker changes. -/
def stepB_record (failed : List String) (tracker : List (String × String))
    (art_id slug : String) (pdf_url? : Option String)
    (downloadOk : String → Bool) : List String × List (String × String) :=
  match pdf_url? with
  | none => (failed, tracker)
  | some url =>
    if downloadOk url then
      (failed, (art_id, slug ++ ".pdf") :: tracker.filter (fun kv => !(kv.1 == art_id)))
    else (failed, tracker)

structure StepCResult where
  pages : List String
  wrote : Bool
  missing_slugs : List String
  merge_failed_slugs : List String
deriving Repr, DecidableEq

/-- One slug of the Step C merge loop (lines 753–783): classify the slug as
missing (in the failed set, unresolved, never downloaded, or its file gone
from disk), append the pages of its PDF, or record an append failure. -/
def stepC_slug (failed : List String) (cache : String → Option String)
    (tracker : String → Option String) (fileExists appendOk : String → Bool)
    (pagesOf : String → List String)
    (acc : List String × List String × List String) (slug : String) :
    List String × List String × List String :=
  let pages := acc.1
  let missing := acc.2.1
  let mfailed := acc.2.2
  if failed.contains slug then (pages, missing ++ [slug], mfailed)
  else
    match cache slug with
    | none => (pages, missing ++ [slug], mfailed)
    | some art_id =>
      match tracker art_id with
      | none => (pages, missing ++ [slug], mfailed)
      | some pdf_path =>
        if !(fileExists pdf_path) then (pages, missing ++ [slug], mfailed)
        else if appendOk pdf_path then (pages ++ pagesOf pdf_path, missing, mfailed)
        else (pages, missing, mfailed ++ [slug])

/-- Step C of `main` (lines 747–794): fold the merge loop over the slugs in
order, then write the merged file only when the merger holds at least one
page (`if merger.pages:`); with no pages, print a warning — an
informational, non-fatal outcome — and create no file. -/
def stepC (slugs : List String) (failed : List String)
    (cache : String → Option String) (tracker : String → Option String)
    (fileExists appendOk : String → Bool) (pagesOf : String → List String) :
    StepCResult :=
  let r := slugs.foldl (stepC_slug failed cache tracker fileExists appendOk pagesOf) ([], [], [])
  { pages := r.1, wrote := !r.1.isEmpty,
    missing_slugs := r.2.1, merge_failed_slugs := r.2.2 }

end Bind9

/-! ### Invariant lemmas for the frontier -/

theorem offer_visited (rule : FilterRule) (st : CrawlState) (u : String) :
    (offer rule st u).visited = st.visited := by
  unfold offer; split <;> rfl

theorem offer_processed (rule : FilterRule) (st : CrawlState) (u : String) :
    (offer rule st u).processed = st.processed := by
  unfold offer; split <;> rfl

theorem foldl_offer_visited (rule : FilterRule) (ls : List String) :
    ∀ st : CrawlState, (ls.foldl (offer rule) st).visited = st.visited := by
  induction ls with
  | nil => intro st; rfl
  | cons l ls ih => intro st; rw [List.foldl_cons, ih, offer_visited]

theorem foldl_offer_processed (rule : FilterRule) (ls : List String) :
    ∀ st : CrawlState, (ls.foldl (offer rule) st).processed = st.processed := by
  induction ls with
  | nil => intro st; rfl
  | cons l ls ih => intro st; rw [List.foldl_cons, ih, offer_processed]

theorem convertPage_visited (env : CrawlEnv) (r : String → Bool) (url : String)
    (st : CrawlState) : (convertPage env r url st).visited = st.visited := by
  unfold convertPage
  split
  · dsimp only
    split <;> rfl
  · rfl

theorem convertPage_processed (env : CrawlEnv) (r : String → Bool) (url : String)
    (st : CrawlState) : (convertPage env r url st).processed = st.processed := by
  unfold convertPage
  split
  · dsimp only
    split <;> rfl
  · rfl

theorem popLast?_of_ne_nil {l : List String} (h : l ≠ []) :
    ∃ url, popLast? l = some (url, l.dropLast) := by
  unfold popLast?
  cases hg : l.getLast? with
  | none => exact absurd (List.getLast?_eq_none_iff.mp hg) h
  | some u => exact ⟨u, rfl⟩

theorem crawlStep_of_visited (env : CrawlEnv) (r : String → Bool) (st : CrawlState)
    (url : String) (rest : List String)
    (hpop : popLast? st.to_visit = some (url, rest))
    (hvis : st.visited.contains url = true) :
    crawlStep env r st = { st with to_visit := rest } := by
  unfold crawlStep
  rw [hpop]
  simp only [hvis]
  rfl

theorem crawlStep_of_fresh (env : CrawlEnv) (r : String → Bool) (st : CrawlState)
    (url : String) (rest : List String)
    (hpop : popLast? st.to_visit = some (url, rest))
    (hvis : st.visited.contains url = false) :
    (crawlStep env r st).visited = st.visited ++ [url] ∧
    (crawlStep env r st).processed = st.processed ++ [url] := by
  unfold crawlStep
  rw [hpop]
  simp only [hvis, Bool.false_eq_true, if_false]
  by_cases hf : env.fetchOk url
  · simp only [hf, if_true]
    rw [convertPage_visited, convertPage_processed, foldl_offer_visited, foldl_offer_processed]
    exact ⟨rfl, rfl⟩
  · simp only [hf, if_false]
    exact ⟨rfl, rfl⟩

/-- The frontier invariant: the processed record is duplicate-free and every
processed URL is in the visited set. -/
def FrontierInv (st : CrawlState) : Prop :=
  st.processed.Nodup ∧ ∀ u ∈ st.processed, u ∈ st.visited

theorem frontierInv_step (env : CrawlEnv) (r : String → Bool) (st : CrawlState)
    (h : FrontierInv st) : FrontierInv (crawlStep env r st) := by
  rcases hne : popLast? st.to_visit with _ | ⟨url, rest⟩
  · unfold crawlStep; rw [hne]; exact h
  · by_cases hvis : st.visited.contains url
    · rw [crawlStep_of_visited env r st url rest hne hvis]
      exact ⟨h.1, h.2⟩
    · have hv := crawlStep_of_fresh env r st url rest hne (by simpa using hvis)
      have hmem : url ∉ st.visited := by simpa using hvis
      have hmemp : url ∉ st.processed := fun hp => hmem (h.2 url hp)
      refine ⟨?_, ?_⟩
      · rw [hv.2]
        exact List.Nodup.append h.1 (List.nodup_singleton url)
          (by simpa [List.disjoint_singleton] using hmemp)
      · intro u hu
        rw [hv.2] at hu
        rw [hv.1]
        rcases List.mem_append.mp hu with hu | hu
        · exact List.mem_append.mpr (Or.inl (h.2 u hu))
        · exact List.mem_append.mpr (Or.inr hu)

theorem frontierInv_loop (env : CrawlEnv) (r : String → Bool) :
    ∀ (fuel : Nat) (st : CrawlState), FrontierInv st → FrontierInv (crawlLoop env r fuel st) := by
  intro fuel
  induction fuel with
  | zero => intro st h; exact h
  | succ n ih =>
    intro st h
    unfold crawlLoop
    split
    · exact h
    · exact ih _ (frontierInv_step env r st h)

theorem crawlLoop_of_done (env : CrawlEnv) (r : String → Bool) (n : Nat) (st : CrawlState)
    (h : crawlDone env st = true) : crawlLoop env r n st = st := by
  cases n with
  | zero => rfl
  | succ n => unfold crawlLoop; simp [h]

theorem crawlLoop_succ_of_not_done (env : CrawlEnv) (r : String → Bool) (n : Nat)
    (st : CrawlState) (h : crawlDone env st = false) :
    crawlLoop env r (n + 1) st = crawlLoop env r n (crawlStep env r st) := by
  have hdef : crawlLoop env r (n + 1) st
      = if crawlDone env st = true then st else crawlLoop env r n (crawlStep env r st) := rfl
  rw [hdef, if_neg (by simp [h])]

/-- Fuel sufficiency for the crawl loop: from any state, some number of
iterations reaches a state where the `while` guard fails.  The measure is
lexicographic: the room left under `CRAWL_LIMIT` first, the worklist length
second. -/
theorem crawl_reaches_done (env : CrawlEnv) (r : String → Bool) :
    ∀ (k m : Nat) (st : CrawlState),
      env.crawl_limit - st.visited.length ≤ k → st.to_visit.length ≤ m →
      ∃ n, crawlDone env (crawlLoop env r n st) = true := by
  intro k
  induction k with
  | zero =>
    intro m st hk _
    refine ⟨0, ?_⟩
    have hle : env.crawl_limit ≤ st.visited.length := Nat.le_of_sub_eq_zero (Nat.le_zero.mp hk)
    simp [crawlLoop, crawlDone, hle]
  | succ k ihk =>
    intro m
    induction m with
    | zero =>
      intro st _ hm
      refine ⟨0, ?_⟩
      have hnil : st.to_visit = [] := List.eq_nil_of_length_eq_zero (Nat.le_zero.mp hm)
      simp [crawlLoop, crawlDone, hnil]
    | succ m ihm =>
      intro st hk hm
      by_cases hd : crawlDone env st = true
      · exact ⟨0, by simpa [crawlLoop_of_done env r 0 st hd]⟩
      · have hdf : crawlDone env st = false := by simpa using hd
        have hne : st.to_visit ≠ [] := by
          intro hnil
          exact hd (by simp [crawlDone, hnil])
        have hlt : st.visited.length < env.crawl_limit := by
          by_contra hge
          have hge' : env.crawl_limit ≤ st.visited.length := Nat.le_of_not_lt hge
          exact hd (by simp [crawlDone, hge'])
        obtain ⟨url, hpop⟩ := popLast?_of_ne_nil hne
        by_cases hvis : st.visited.contains url
        · have hstep := crawlStep_of_visited env r st url _ hpop hvis
          have hk' : env.crawl_limit - (crawlStep env r st).visited.length ≤ k + 1 := by
            rw [hstep]; exact hk
          have hm' : (crawlStep env r st).to_visit.length ≤ m := by
            rw [hstep]
            show st.to_visit.dropLast.length ≤ m
            have h2 : 0 < st.to_visit.length := List.length_pos.mpr hne
            simp only [List.length_dropLast]
            omega
          obtain ⟨n, hn⟩ := ihm (crawlStep env r st) hk' hm'
          exact ⟨n + 1, by rw [crawlLoop_succ_of_not_done env r n st hdf]; exact hn⟩
        · have hvisf : st.visited.contains url = false := by simpa using hvis
          have hv := crawlStep_of_fresh env r st url _ hpop hvisf
          have hlen : (crawlStep env r st).visited.length = st.visited.length + 1 := by
            rw [hv.1]; simp
          have hk' : env.crawl_limit - (crawlStep env r st).visited.length ≤ k := by omega
          obtain ⟨n, hn⟩ :=
            ihk (crawlStep env r st).to_visit.length (crawlStep env r st) hk' (le_refl _)
          exact ⟨n + 1, by rw [crawlLoop_succ_of_not_done env r n st hdf]; exact hn⟩

/-- C1: over the life of a frontier, each distinct URL is dequeued for
processing at most once (the record of processed URLs is duplicate-free and
contained in the visited set); a URL already in the visited set is skipped
on pop, the state changing only by the removal from the worklist; and a
fresh URL is added to the visited set immediately upon dequeue — it is in
`visited` after the step for every environment, in particular whether or not
its fetch succeeds. -/
theorem frontier_processes_each_url_at_most_once (env : CrawlEnv) (r : String → Bool)
    (fuel : Nat) (start : String) :
    ((crawlLoop env r fuel (initState start)).processed).Nodup ∧
    (∀ u ∈ (crawlLoop env r fuel (initState start)).processed,
        u ∈ (crawlLoop env r fuel (initState start)).visited) ∧
    (∀ (st : CrawlState) (url : String) (rest : List String),
        popLast? st.to_visit = some (url, rest) → st.visited.contains url = true →
        crawlStep env r st = { st with to_visit := rest }) ∧
    (∀ (st : CrawlState) (url : String) (rest : List String),
        popLast? st.to_visit = some (url, rest) → st.visited.contains url = false →
        url ∈ (crawlStep env r st).visited) := by
  have hinv := frontierInv_loop env r fuel (initState start)
    ⟨List.nodup_nil, by intro u hu; cases hu⟩
  refine ⟨hinv.1, hinv.2, ?_, ?_⟩
  · intro st url rest hpop hvis
    exact crawlStep_of_visited env r st url rest hpop hvis
  · intro st url rest hpop hvis
    have hv := crawlStep_of_fresh env r st url rest hpop hvis
    rw [hv.1]
    exact List.mem_append.mpr (Or.inr (List.mem_singleton.mpr rfl))

theorem frontier_processes_each_url_at_most_once_witness :
    ((crawlLoop exEnv exRender 5 (initState exX)).processed).Nodup ∧
    crawlStep exEnv exRender seenState = { seenState with to_visit := [] } ∧
    exX ∈ (crawlStep exEnv exRender (initState exX)).visited :=
  ⟨(frontier_processes_each_url_at_most_once exEnv exRender 5 exX).1,
   (frontier_processes_each_url_at_most_once exEnv exRender 5 exX).2.2.1
     seenState exX [] rfl rfl,
   (frontier_processes_each_url_at_most_once exEnv exRender 5 exX).2.2.2
     (initState exX) exX [] rfl rfl⟩

/-- C2: the crawl loop terminates for every link graph: from any state some
finite number of iterations reaches a state where the `while` guard fails
(worklist empty or visited count at the crawl limit), and such states are
fixed points of the loop.  On the cyclic two-page graph in which X links to
Y and Y links back to X, the crawl processes exactly X then Y, each once,
and stops. -/
theorem crawl_loop_terminates :
    (∀ (env : CrawlEnv) (r : String → Bool) (st : CrawlState),
        ∃ n, crawlDone env (crawlLoop env r n st) = true) ∧
    (∀ (env : CrawlEnv) (r : String → Bool) (n : Nat) (st : CrawlState),
        crawlDone env st = true → crawlLoop env r n st = st) ∧
    ((crawlLoop exEnv exRender 5 (initState exX)).processed = [exX, exY] ∧
      (crawlLoop exEnv exRender 5 (initState exX)).processed.count exX = 1 ∧
      (crawlLoop exEnv exRender 5 (initState exX)).processed.count exY = 1 ∧
      crawlDone exEnv (crawlLoop exEnv exRender 5 (initState exX)) = true) := by
  refine ⟨?_, ?_, by decide, by decide, by decide, by decide⟩
  · intro env r st
    exact crawl_reaches_done env r (env.crawl_limit - st.visited.length)
      st.to_visit.length st (le_refl _) (le_refl _)
  · intro env r n st h
    exact crawlLoop_of_done env r n st h

theorem crawl_loop_terminates_witness :
    crawlDone exEnv doneState = true ∧ crawlLoop exEnv exRender 3 doneState = doneState :=
  ⟨rfl, crawl_loop_terminates.2.1 exEnv exRender 3 doneState rfl⟩

/-- C3: the filter with allow-pattern `^/docs/current/`, domain
`example.org` and exclude keywords `["faq"]` rejects the `faq` page
(excluded keyword), accepts `mod/core.html`, rejects the foreign-host URL,
and rejects the `tr/` URL because the third path segment `tr` matches the
locale-code pattern; a path with fewer than three segments passes the
locale check.  The check order (domain, path prefix, keyword exclusion,
locale segment) is that of the nested conditionals of `is_valid_link`. -/
theorem filter_correctness_on_spec_examples :
    is_valid_link specRule "https://example.org/docs/current/faq.html" = false ∧
    is_valid_link specRule "https://example.org/docs/current/mod/core.html" = true ∧
    is_valid_link specRule "https://other.org/docs/current/x.html" = false ∧
    is_valid_link specRule "https://example.org/docs/current/tr/x.html" = false ∧
    (urlparse "https://other.org/docs/current/x.html").netloc = "other.org" ∧
    hasSubstr "faq" (lowerStr "/docs/current/faq.html") = true ∧
    (splitChar '/'
        (stripSlashes (urlparse "https://example.org/docs/current/tr/x.html").path).data).getD 2 ""
      = "tr" ∧
    localeCodeMatch "tr" = true ∧
    is_valid_link specRule "https://example.org/docs/current/" = true := by
  refine ⟨by decide, by decide, by decide, by decide, by decide,
    by decide, by decide, by decide, by decide⟩

/-! ### Further preservation lemmas about `offer` and `convertPage` -/

theorem offer_pdf_files (rule : FilterRule) (st : CrawlState) (u : String) :
    (offer rule st u).pdf_files = st.pdf_files := by
  unfold offer; split <;> rfl

theorem offer_page_count (rule : FilterRule) (st : CrawlState) (u : String) :
    (offer rule st u).page_count = st.page_count := by
  unfold offer; split <;> rfl

theorem offer_files_on_disk (rule : FilterRule) (st : CrawlState) (u : String) :
    (offer rule st u).files_on_disk = st.files_on_disk := by
  unfold offer; split <;> rfl

theorem foldl_offer_pdf_files (rule : FilterRule) (ls : List String) :
    ∀ st : CrawlState, (ls.foldl (offer rule) st).pdf_files = st.pdf_files := by
  induction ls with
  | nil => intro st; rfl
  | cons l ls ih => intro st; rw [List.foldl_cons, ih, offer_pdf_files]

theorem foldl_offer_page_count (rule : FilterRule) (ls : List String) :
    ∀ st : CrawlState, (ls.foldl (offer rule) st).page_count = st.page_count := by
  induction ls with
  | nil => intro st; rfl
  | cons l ls ih => intro st; rw [List.foldl_cons, ih, offer_page_count]

theorem foldl_offer_files_on_disk (rule : FilterRule) (ls : List String) :
    ∀ st : CrawlState, (ls.foldl (offer rule) st).files_on_disk = st.files_on_disk := by
  induction ls with
  | nil => intro st; rfl
  | cons l ls ih => intro st; rw [List.foldl_cons, ih, offer_files_on_disk]

theorem convertPage_of_clean_render_fail (env : CrawlEnv) (r : String → Bool) (url : String)
    (st : CrawlState) (hclean : env.cleanupOk url = true)
    (hrender : r (pdf_fullpath url) = false) :
    convertPage env r url st
      = { st with pdf_files := st.pdf_files ++ [pdf_fullpath url],
                  page_count := st.page_count + 1 } := by
  unfold convertPage
  simp only [hclean, if_true, hrender, Bool.false_eq_true, if_false]

/-- C4: a render failure is invisible to everything the crawl later reads —
`convertPage` produces the same visited set, worklist, processed record,
merge manifest and page count under any two renderer oracles — and the
merger keeps the pages of the appendable inputs A and C in manifest order
while the failed input B contributes nothing.  On the concrete three-page
chain where only the render of B fails, the crawl still processes A, B and
C, and merging the files actually on disk yields exactly the pages of A
then those of C. -/
theorem renderer_failure_isolation :
    (∀ (env : CrawlEnv) (r r2 : String → Bool) (url : String) (st : CrawlState),
        (convertPage env r url st).visited = (convertPage env r2 url st).visited ∧
        (convertPage env r url st).to_visit = (convertPage env r2 url st).to_visit ∧
        (convertPage env r url st).processed = (convertPage env r2 url st).processed ∧
        (convertPage env r url st).pdf_files = (convertPage env r2 url st).pdf_files ∧
        (convertPage env r url st).page_count = (convertPage env r2 url st).page_count) ∧
    (∀ (appendOk : String → Bool) (pagesOf : String → List String) (A B C : String),
        appendOk A = true → appendOk B = false → appendOk C = true →
        (merge_pdfs appendOk pagesOf [A, B, C]).pages = pagesOf A ++ pagesOf C) ∧
    ((crawlLoop chainEnv renderFailB 10 (initState exA)).processed = [exA, exB, exC] ∧
      (crawlLoop chainEnv renderFailB 10 (initState exA)).pdf_files
        = [pdf_fullpath exA, pdf_fullpath exB, pdf_fullpath exC] ∧
      (crawlLoop chainEnv renderFailB 10 (initState exA)).files_on_disk
        = [pdf_fullpath exA, pdf_fullpath exC] ∧
      (merge_pdfs ((crawlLoop chainEnv renderFailB 10 (initState exA)).files_on_disk).contains
          (fun p => [p])
          (crawlLoop chainEnv renderFailB 10 (initState exA)).pdf_files).pages
        = [pdf_fullpath exA, pdf_fullpath exC]) := by
  refine ⟨?_, ?_, by decide, by decide, by decide, by decide⟩
  · intro env r r2 url st
    unfold convertPage
    dsimp only
    split
    · refine ⟨?_, ?_, ?_, ?_, ?_⟩ <;> (split <;> split <;> rfl)
    · exact ⟨rfl, rfl, rfl, rfl, rfl⟩
  · intro appendOk pagesOf A B C hA hB hC
    simp [merge_pdfs, hA, hB, hC]

theorem renderer_failure_isolation_witness :
    (convertPage chainEnv renderFailB exB (initState exA)).page_count
        = (convertPage chainEnv exRender exB (initState exA)).page_count ∧
    (merge_pdfs (fun p => !(p == pdf_fullpath exB)) (fun p => [p])
        [pdf_fullpath exA, pdf_fullpath exB, pdf_fullpath exC]).pages
      = [pdf_fullpath exA, pdf_fullpath exC] :=
  ⟨(renderer_failure_isolation.1 chainEnv renderFailB exRender exB (initState exA)).2.2.2.2,
   renderer_failure_isolation.2.1 (fun p => !(p == pdf_fullpath exB)) (fun p => [p])
     (pdf_fullpath exA) (pdf_fullpath exB) (pdf_fullpath exC) (by decide) (by decide) (by decide)⟩

/-- C5 counterexample: the merger of `apache_httpd_doc_crawler.py` calls
`merger.write` unconditionally, so on a one-entry manifest where zero
inputs are appendable it still produces an output file (with no pages). -/
theorem apache_merge_writes_output_with_zero_appendable :
    (merge_pdfs (fun _ => false) (fun p => [p])
        ["apache_httpd_docs_pdf/docs-current-a.html.pdf"]).wrote = true ∧
    (merge_pdfs (fun _ => false) (fun p => [p])
        ["apache_httpd_docs_pdf/docs-current-a.html.pdf"]).pages = [] := by
  refine ⟨rfl, rfl⟩

theorem stepC_foldl_pages_nil (failed : List String) (cache : String → Option String)
    (tracker : String → Option String) (fe appendOk : String → Bool)
    (pagesOf : String → List String) (h : ∀ p, appendOk p = false) :
    ∀ (slugs : List String) (acc : List String × List String × List String),
      acc.1 = [] →
      (slugs.foldl (Bind9.stepC_slug failed cache tracker fe appendOk pagesOf) acc).1 = [] := by
  intro slugs
  induction slugs with
  | nil => intro acc ha; exact ha
  | cons s ss ih =>
    intro acc ha
    rw [List.foldl_cons]
    apply ih
    unfold Bind9.stepC_slug
    dsimp only
    split
    · exact ha
    · split
      · exact ha
      · split
        · exact ha
        · split
          · exact ha
          · rw [if_neg (by simp [h])]
            exact ha

/-- C5 amended: in the `bind9_pdf_v2.py` merger (Step C), when zero inputs
are appendable the merger holds no pages, so no merged output file is
written — the script prints an informational warning instead of failing;
the apache merger, by contrast, writes its output file unconditionally. -/
theorem bind9_merge_no_output_when_zero_appendable (slugs : List String)
    (failed : List String) (cache : String → Option String)
    (tracker : String → Option String) (fe appendOk : String → Bool)
    (pagesOf : String → List String) (h : ∀ p, appendOk p = false) :
    (Bind9.stepC slugs failed cache tracker fe appendOk pagesOf).pages = [] ∧
    (Bind9.stepC slugs failed cache tracker fe appendOk pagesOf).wrote = false := by
  have hp : (slugs.foldl (Bind9.stepC_slug failed cache tracker fe appendOk pagesOf)
      ([], [], [])).1 = [] :=
    stepC_foldl_pages_nil failed cache tracker fe appendOk pagesOf h slugs ([], [], []) rfl
  unfold Bind9.stepC
  refine ⟨hp, ?_⟩
  simp [hp]

theorem bind9_merge_no_output_witness :
    (Bind9.stepC ["aa-01310"] [] (fun _ => some "id0") (fun _ => some "aa-01310.pdf")
        (fun _ => true) (fun _ => false) (fun p => [p])).wrote = false :=
  (bind9_merge_no_output_when_zero_appendable ["aa-01310"] [] (fun _ => some "id0")
    (fun _ => some "aa-01310.pdf") (fun _ => true) (fun _ => false) (fun p => [p])
    (fun _ => rfl)).2

/-- C6: a slug that is not failed, resolves to an article id, and has a
tracker entry whose recorded local file is missing, is attempted afresh:
the decision is `attempt` and the stale `DOWNLOADED` entry is deleted from
the tracker before the attempt. -/
theorem cache_resume_redownloads_missing_file (failed : List String) (slug art_id : String)
    (tracker : List (String × String)) (kv : String × String) (fileExists : String → Bool)
    (hslug : failed.contains slug = false)
    (hfind : tracker.find? (fun kv2 => kv2.1 == art_id) = some kv)
    (hmiss : fileExists kv.2 = false) :
    (Bind9.stepB_decide failed slug (some art_id) tracker fileExists).1
        = Bind9.DownloadDecision.attempt ∧
    ((Bind9.stepB_decide failed slug (some art_id) tracker fileExists).2).find?
        (fun kv2 => kv2.1 == art_id) = none := by
  unfold Bind9.stepB_decide
  simp only [hslug, Bool.false_eq_true, if_false, hfind, hmiss]
  refine ⟨by trivial, ?_⟩
  rw [List.find?_eq_none]
  intro kv2 hkv2
  have hf := (List.mem_filter.mp hkv2).2
  simpa using hf

theorem cache_resume_redownloads_missing_file_witness :
    (Bind9.stepB_decide [] "aa-01310" (some "id0") [("id0", "aa-01310.pdf")]
        (fun _ => false)).1 = Bind9.DownloadDecision.attempt :=
  (cache_resume_redownloads_missing_file [] "aa-01310" "id0" [("id0", "aa-01310.pdf")]
    ("id0", "aa-01310.pdf") (fun _ => false) rfl rfl rfl).1

theorem poll_none_of_never_complete (polls : List (Option Bind9.TaskData))
    (h : ∀ d, some d ∈ polls → d.isComplete = false) :
    Bind9.poll_task_status polls = none := by
  induction polls with
  | nil => rfl
  | cons r rest ih =>
    cases r with
    | none => exact ih (fun d hd => h d (List.mem_cons_of_mem _ hd))
    | some d =>
      show (if d.isComplete then some d else Bind9.poll_task_status rest) = none
      rw [if_neg (by simp [h d (List.mem_cons_self _ _)])]
      exact ih (fun d2 hd2 => h d2 (List.mem_cons_of_mem _ hd2))

/-- C7: when polling exhausts its attempt budget with no completed status,
or the completed status carries no `url` entry, the generate step returns
no PDF URL; the bookkeeping then leaves both the failed set and the tracker
unchanged, so a slug in the `RESOLVED` state (not failed, id known, no
tracker entry) is decided `attempt` again on the next run. -/
theorem poll_exhaustion_leaves_resolved (tid : String)
    (polls : List (Option Bind9.TaskData)) (failed : List String)
    (tracker : List (String × String)) (slug art_id : String) (dl fe : String → Bool)
    (h : (∀ d, some d ∈ polls → d.isComplete = false) ∨
      (∃ d, Bind9.poll_task_status polls = some d ∧ d.isComplete = true ∧
        d.result.find? (fun item => item.1 == "url") = none)) :
    Bind9.generate_single_article_pdf (some (some tid)) polls = none ∧
    Bind9.stepB_record failed tracker art_id slug
        (Bind9.generate_single_article_pdf (some (some tid)) polls) dl
      = (failed, tracker) ∧
    (failed.contains slug = false →
      tracker.find? (fun kv => kv.1 == art_id) = none →
      (Bind9.stepB_decide failed slug (some art_id) tracker fe).1
        = Bind9.DownloadDecision.attempt) := by
  have hgen : Bind9.generate_single_article_pdf (some (some tid)) polls = none := by
    unfold Bind9.generate_single_article_pdf
    rcases h with h | ⟨d, hd, hc, hu⟩
    · rw [poll_none_of_never_complete polls h]
    · rw [hd]
      simp [hc, hu]
  refine ⟨hgen, ?_, ?_⟩
  · rw [hgen]
    rfl
  · intro h1 h2
    unfold Bind9.stepB_decide
    simp only [h1, Bool.false_eq_true, if_false, h2]

theorem poll_exhaustion_leaves_resolved_witness :
    Bind9.generate_single_article_pdf (some (some "tid0"))
        [none, some ⟨false, []⟩] = none ∧
    (Bind9.stepB_decide [] "aa-01310" (some "id0") [] (fun _ => true)).1
      = Bind9.DownloadDecision.attempt := by
  have h := poll_exhaustion_leaves_resolved "tid0" [none, some ⟨false, []⟩] []
    [] "aa-01310" "id0" (fun _ => true) (fun _ => true)
    (Or.inl (by intro d hd; simp at hd; rw [hd]))
  exact ⟨h.1, h.2.2 rfl rfl⟩

/-- C8 counterexample: offering the same unvisited URL twice enqueues it
twice — `offer` checks the visited set and the filter but never the pending
worklist, so the worklist can contain two copies of one URL. -/
theorem offer_enqueues_duplicate_pending_url :
    (offer apacheRule (offer apacheRule (initState exX)
        "https://httpd.apache.org/docs/current/z.html")
        "https://httpd.apache.org/docs/current/z.html").to_visit
      = [exX, "https://httpd.apache.org/docs/current/z.html",
         "https://httpd.apache.org/docs/current/z.html"] ∧
    (offer apacheRule (offer apacheRule (initState exX)
        "https://httpd.apache.org/docs/current/z.html")
        "https://httpd.apache.org/docs/current/z.html").to_visit.count
        "https://httpd.apache.org/docs/current/z.html" = 2 := by
  refine ⟨by decide, by decide⟩

/-- C8 amended: `offer` appends the normalized URL to the worklist exactly
when it is not in the visited set and passes the link filter; there is no
check against the pending worklist, so the worklist may hold duplicates
(final deduplication happens at dequeue, via the visited set). -/
theorem offer_appends_iff_unvisited_and_valid (rule : FilterRule) (st : CrawlState)
    (u : String) :
    (st.visited.contains u = false → is_valid_link rule u = true →
        (offer rule st u).to_visit = st.to_visit ++ [u]) ∧
    (st.visited.contains u = true → offer rule st u = st) ∧
    (is_valid_link rule u = false → offer rule st u = st) := by
  refine ⟨?_, ?_, ?_⟩
  · intro h1 h2
    have h1m : u ∉ st.visited := by simpa using h1
    unfold offer
    rw [if_pos (by simp [h1m, h2])]
  · intro h1
    have h1m : u ∈ st.visited := by simpa using h1
    unfold offer
    rw [if_neg (by simp [h1m])]
  · intro h1
    unfold offer
    rw [if_neg (by simp [h1])]

theorem offer_appends_iff_unvisited_and_valid_witness :
    (offer apacheRule (initState exX) exY).to_visit = [exX, exY] ∧
    offer apacheRule seenState exX = seenState ∧
    offer apacheRule (initState exX) "https://elsewhere.example/page" = initState exX :=
  ⟨(offer_appends_iff_unvisited_and_valid apacheRule (initState exX) exY).1 rfl (by decide),
   (offer_appends_iff_unvisited_and_valid apacheRule seenState exX).2.1 rfl,
   (offer_appends_iff_unvisited_and_valid apacheRule (initState exX)
     "https://elsewhere.example/page").2.2 (by decide)⟩

/-- C9: after the removal pass, the cleaner output is exactly the
`div#page-content` region when one is present; otherwise the document body
when one exists; otherwise the whole remaining document — and when those
components are nonempty the output is nonempty, so a document lacking the
main-content selector never yields an empty result. -/
theorem content_cleaner_fallback :
    (∀ (s : Soup) (c : String), s.pageContentDiv = some c → select_content s = c) ∧
    (∀ (s : Soup) (b : String), s.pageContentDiv = none → s.body = some b →
        select_content s = b) ∧
    (∀ s : Soup, s.pageContentDiv = none → s.body = none →
        select_content s = s.whole) ∧
    (∀ s : Soup, s.whole ≠ "" →
        (∀ b, s.body = some b → b ≠ "") →
        (∀ c, s.pageContentDiv = some c → c ≠ "") →
        select_content s ≠ "") := by
  refine ⟨?_, ?_, ?_, ?_⟩
  · intro s c h
    simp [select_content, h]
  · intro s b h1 h2
    simp [select_content, h1, h2]
  · intro s h1 h2
    simp [select_content, h1, h2]
  · intro s hw hb hc
    unfold select_content
    cases hpc : s.pageContentDiv with
    | some c => exact hc c hpc
    | none =>
      cases hbd : s.body with
      | some b => exact hb b hbd
      | none => exact hw

theorem content_cleaner_fallback_witness :
    select_content exSoupMain = "<div id=page-content>m</div>" ∧
    select_content exSoup = "<body>x</body>" ∧
    select_content exSoupBare = exSoupBare.whole ∧
    select_content exSoup ≠ "" :=
  ⟨content_cleaner_fallback.1 exSoupMain "<div id=page-content>m</div>" rfl,
   content_cleaner_fallback.2.1 exSoup "<body>x</body>" rfl rfl,
   content_cleaner_fallback.2.2.1 exSoupBare rfl rfl,
   content_cleaner_fallback.2.2.2 exSoup (by decide)
     (by intro b hb; simp [exSoup] at hb; subst hb; decide)
     (by intro c hc; simp [exSoup] at hc)⟩

/-- C10: `html_to_pdf` swallows renderer failures, so when a freshly
dequeued page fetches and cleans up fine but its render fails (no PDF file
appears on disk), the loop body still appends the output path of the page to the
`pdf_files` merge manifest and still increments `page_count` — the final
`Created N PDFs` summary counts the failed render, and the manifest holds a
path with no file on disk. -/
theorem failed_render_still_counted (env : CrawlEnv) (r : String → Bool)
    (st : CrawlState) (url : String) (rest : List String)
    (hpop : popLast? st.to_visit = some (url, rest))
    (hvis : st.visited.contains url = false)
    (hfetch : env.fetchOk url = true)
    (hclean : env.cleanupOk url = true)
    (hrender : r (pdf_fullpath url) = false)
    (hdisk : pdf_fullpath url ∉ st.files_on_disk) :
    (crawlStep env r st).pdf_files = st.pdf_files ++ [pdf_fullpath url] ∧
    pdf_fullpath url ∈ (crawlStep env r st).pdf_files ∧
    (crawlStep env r st).page_count = st.page_count + 1 ∧
    pdf_fullpath url ∉ (crawlStep env r st).files_on_disk := by
  unfold crawlStep
  rw [hpop]
  simp only [hvis, Bool.false_eq_true, if_false, hfetch, if_true]
  rw [convertPage_of_clean_render_fail env r url _ hclean hrender]
  dsimp only
  rw [foldl_offer_pdf_files, foldl_offer_page_count, foldl_offer_files_on_disk]
  refine ⟨rfl, List.mem_append.mpr (Or.inr (List.mem_singleton.mpr rfl)), rfl, hdisk⟩

theorem failed_render_still_counted_witness :
    (crawlStep chainEnv (fun _ => false) (initState exA)).pdf_files
        = [pdf_fullpath exA] ∧
    (crawlStep chainEnv (fun _ => false) (initState exA)).page_count = 1 ∧
    pdf_fullpath exA ∉ (crawlStep chainEnv (fun _ => false) (initState exA)).files_on_disk := by
  have h := failed_render_still_counted chainEnv (fun _ => false) (initState exA) exA []
    rfl rfl rfl rfl rfl (by simp [initState])
  exact ⟨by rw [h.1]; rfl, h.2.2.1, h.2.2.2⟩

end DocPdf
